import Mathlib

/-!
Verification of the update-availability checker of the console-marketplace
web client (`src/web/src/hooks/useVersionCheck.tsx`).

The first part embeds the pure version comparator `isNewerVersion` at the
level of JavaScript semantics: `parseInt(n, 10)` (whitespace skipping, an
optional sign, a maximal run of decimal digits, `NaN` on no digits) is
modelled by `parseIntJS` returning `Option Int` (`none` = `NaN`), `x || 0`
by `jsOr0`, `split('.')` by `splitDots`, and array destructuring of a
possibly short array by `List.get?`, so that a missing component is
`none` (JavaScript `undefined`).  The strict inequality `!==` and the
comparison `>` on possibly-undefined numbers are `jsNe` and `jsGt`
(`undefined` converts to `NaN`, and every `>` involving `NaN` is false).

The second part embeds the stateful hook `useVersionCheck` as a small
event-step machine: the observable React state is `VersionInfo`, the
in-flight fetches are a list of `Request`s each carrying the
`currentVersion` captured by its closure and an aborted flag, and the
events are outcome delivery, a prop change (which runs the effect cleanup,
aborting outstanding requests, and issues a new request), and unmount.
The `try`/`catch` of `checkVersion` is `applyOutcome`/`handleCatch`.
-/

/-- Characters treated as whitespace by JavaScript `parseInt` (the common
ones; identified by code point). -/
def jsWhitespace (c : Char) : Bool :=
  decide (c.toNat = 9 ∨ c.toNat = 10 ∨ c.toNat = 11 ∨ c.toNat = 12 ∨
    c.toNat = 13 ∨ c.toNat = 32 ∨ c.toNat = 160 ∨ c.toNat = 0x2028 ∨
    c.toNat = 0x2029 ∨ c.toNat = 0xFEFF)

/-- ASCII decimal digit, the only digits accepted by `parseInt(_, 10)`. -/
def isDigit10 (c : Char) : Bool :=
  decide (48 ≤ c.toNat ∧ c.toNat ≤ 57)

/-- Value of a run of decimal digits. -/
def digitsToNat (l : List Char) : Nat :=
  l.foldl (fun a c => 10 * a + (c.toNat - 48)) 0

/-- JavaScript `parseInt(s, 10)`: skip leading whitespace, read an optional
sign, then a maximal run of decimal digits; `none` models `NaN` (no
digits). -/
def parseIntJS (l : List Char) : Option Int :=
  let l1 := l.dropWhile jsWhitespace
  if l1 = [] then none
  else
    let c := l1.headD ' '
    if c = '-' then
      let ds := l1.tail.takeWhile isDigit10
      if ds = [] then none else some (-(digitsToNat ds : Int))
    else if c = '+' then
      let ds := l1.tail.takeWhile isDigit10
      if ds = [] then none else some ((digitsToNat ds : Int))
    else
      let ds := l1.takeWhile isDigit10
      if ds = [] then none else some ((digitsToNat ds : Int))

/-- JavaScript `x || 0` applied to a `parseInt` result: `NaN` becomes `0`,
any integer is kept (`0 || 0` is `0` as well). -/
def jsOr0 (o : Option Int) : Int := o.getD 0

/-- JavaScript `s.split('.')` on the character list of `s`. -/
def splitDots : List Char → List (List Char)
  | [] => [[]]
  | c :: cs =>
    let r := splitDots cs
    if c = '.' then [] :: r
    else (c :: r.headD []) :: r.tail

/-- JavaScript `v.replace(/^v/, '')`: drop one leading lowercase `v`. -/
def stripV : List Char → List Char
  | [] => []
  | c :: cs => if c = 'v' then cs else c :: cs

/-- The `parse` closure of `isNewerVersion`:
`v.replace(/^v/, '').split('.').map(n => parseInt(n, 10) || 0)`. -/
def parseVerL (l : List Char) : List Int :=
  (splitDots (stripV l)).map (fun c => jsOr0 (parseIntJS c))

/-- `parse` applied to a string. -/
def parseVer (s : String) : List Int := parseVerL s.data

/-- JavaScript `!==` between two numbers that may be `undefined` (`none`):
`undefined !== undefined` is false, `undefined !== n` is true. -/
def jsNe : Option Int → Option Int → Bool
  | none, none => false
  | some m, some n => m != n
  | _, _ => true

/-- JavaScript `>` between two numbers that may be `undefined`: `undefined`
converts to `NaN` and every comparison involving `NaN` is false. -/
def jsGt : Option Int → Option Int → Bool
  | some m, some n => decide (n < m)
  | _, _ => false

/-- The comparison body of `isNewerVersion` after the two destructurings
`const [aMajor, aMinor, aPatch] = parse(a)` (a component beyond the length
of the parsed array is `undefined`, i.e. `none`). -/
def cmpParsed (pa pb : List Int) : Bool :=
  let aMajor := pa.get? 0
  let aMinor := pa.get? 1
  let aPatch := pa.get? 2
  let bMajor := pb.get? 0
  let bMinor := pb.get? 1
  let bPatch := pb.get? 2
  if jsNe aMajor bMajor then jsGt aMajor bMajor
  else if jsNe aMinor bMinor then jsGt aMinor bMinor
  else jsGt aPatch bPatch

/-- `isNewerVersion(a, b)` of `useVersionCheck.tsx`. -/
def isNewerVersion (a b : String) : Bool :=
  cmpParsed (parseVer a) (parseVer b)

/-- A version-string component that is a nonempty run of decimal digits. -/
def numericComponent (c : List Char) : Bool :=
  decide (c ≠ []) && c.all isDigit10

/-- The input grammar of claim C1: after stripping an optional leading `v`,
exactly three dot-separated nonempty numeric components. -/
def threeNumeric (s : String) : Bool :=
  let cs := splitDots (stripV s.data)
  decide (cs.length = 3) && cs.all numericComponent

/-- The (major, minor, patch) integer triple of a version string matching
the grammar of claim C1. -/
def verTriple (s : String) : Nat × Nat × Nat :=
  let cs := splitDots (stripV s.data)
  (digitsToNat (cs.getD 0 []), digitsToNat (cs.getD 1 []),
    digitsToNat (cs.getD 2 []))

/-- Strict lexicographic order on (major, minor, patch) triples, written
from the words of the specification. -/
def tripleLexGt (a b : Nat × Nat × Nat) : Prop :=
  b.1 < a.1 ∨ (a.1 = b.1 ∧ (b.2.1 < a.2.1 ∨ (a.2.1 = b.2.1 ∧ b.2.2 < a.2.2)))

instance (a b : Nat × Nat × Nat) : Decidable (tripleLexGt a b) := by
  unfold tripleLexGt; infer_instance

/-- The observable React state of the hook (the `VersionInfo` interface).
Absent (`null`) values are `none`. -/
structure VersionInfo where
  latestVersion : Option String
  currentVersion : Option String
  updateAvailable : Bool
  loading : Bool
  error : Option String
deriving DecidableEq

/-- A JavaScript error as observed by the `catch` block: only its `name`
and `message` matter to the hook. -/
structure JSError where
  name : String
  message : String
deriving DecidableEq

/-- Outcome of one fetch attempt, as seen by `checkVersion`: a response with
`ok = true` whose JSON body has an optional `tag_name` field, a response
with `ok = false` (carrying its `statusText`), or a rejection of `fetch` /
body reading with some error. -/
inductive FetchOutcome where
  | ok (statusText : String) (tagName : Option String)
  | notOk (statusText : String)
  | reject (e : JSError)
deriving DecidableEq

/-- The `catch` block of `checkVersion`: an error named `AbortError` is
discarded (`return`, no state update); any other error sets
`loading := false` and `error := err.message`, keeping the other fields of
the previous state (the `...prev` spread). -/
def handleCatch (e : JSError) (prev : VersionInfo) : VersionInfo :=
  if e.name = "AbortError" then prev
  else ⟨prev.latestVersion, prev.currentVersion, prev.updateAvailable,
    false, some e.message⟩

/-- The body of `checkVersion` for the request whose closure captured
`cv` as `currentVersion`, applied to the previous observable state.
On `ok`, `latestVersion = data.tag_name ?? null` and `updateAvailable`
is `latestVersion !== null && currentVersion !== null &&
isNewerVersion(latestVersion, currentVersion)`; on a non-ok response the
thrown `Error` (whose `name` is `"Error"`) reaches the catch block. -/
def applyOutcome (cv : Option String) (o : FetchOutcome)
    (prev : VersionInfo) : VersionInfo :=
  match o with
  | .ok _ tag =>
    ⟨tag, cv,
      (match tag, cv with
        | some t, some c => isNewerVersion t c
        | _, _ => false),
      false, none⟩
  | .notOk st => handleCatch ⟨"Error", "Version check failed: " ++ st⟩ prev
  | .reject e => handleCatch e prev

/-- One outstanding fetch: the `currentVersion` captured by the effect that
issued it, and whether its `AbortController` has been aborted. -/
structure Request where
  cv : Option String
  aborted : Bool
deriving DecidableEq

/-- A hook instance: the observable state and the outstanding requests. -/
structure Machine where
  ui : VersionInfo
  reqs : List Request
deriving DecidableEq

/-- Events of the single-threaded event loop that the hook reacts to:
delivery of the outcome of outstanding request `i`, a change of the
`currentVersion` prop (effect cleanup + new effect), and unmount (effect
cleanup only). -/
inductive Ev where
  | deliver (i : Nat) (o : FetchOutcome)
  | setProps (cv : Option String)
  | unmount
deriving DecidableEq

/-- The rejection produced by `controller.abort()` on the pending fetch. -/
def abortError : JSError := ⟨"AbortError", "The operation was aborted."⟩

/-- Effect cleanup marks a request's controller as aborted. -/
def markAborted (r : Request) : Request := ⟨r.cv, true⟩

/-- Delivery of outcome `o` to outstanding request `i`: if the request was
aborted, the awaited promise rejects with `AbortError` instead, so the
catch block sees the abort; the request is consumed either way. -/
def deliverOutcome (m : Machine) (i : Nat) (o : FetchOutcome) : Machine :=
  match m.reqs.get? i with
  | none => m
  | some r =>
    let actual := if r.aborted then FetchOutcome.reject abortError else o
    ⟨applyOutcome r.cv actual m.ui, m.reqs.eraseIdx i⟩

/-- One step of the hook.  `setProps cv` models a change of the
`currentVersion` prop: React runs the effect cleanup (aborting every
outstanding request) and then the effect again, which issues exactly one
new request capturing `cv`; the `useState` value is NOT re-initialised.
`unmount` runs the cleanup only. -/
def step (m : Machine) (e : Ev) : Machine :=
  match e with
  | .deliver i o => deliverOutcome m i o
  | .setProps cv => ⟨m.ui, m.reqs.map markAborted ++ [⟨cv, false⟩]⟩
  | .unmount => ⟨m.ui, m.reqs.map markAborted⟩

/-- Mounting the hook with prop `cv`: `useState` initialises the observable
state to `{latestVersion: null, currentVersion: cv, updateAvailable: false,
loading: true, error: null}` and the effect issues one request. -/
def initMachine (cv : Option String) : Machine :=
  ⟨⟨none, cv, false, true, none⟩, [⟨cv, false⟩]⟩

/-- All states reachable from a mount are obtained by folding `step` over
an event list. -/
def run (cv0 : Option String) (evs : List Ev) : Machine :=
  evs.foldl step (initMachine cv0)

/-- The field-level invariant of claim C3. -/
def uiInvariant (ui : VersionInfo) : Prop :=
  ui.updateAvailable = true ↔
    (∃ t c, ui.latestVersion = some t ∧ ui.currentVersion = some c ∧
      isNewerVersion t c = true)

/-- An event whose supplied `currentVersion` (if any) is null. -/
def evNull : Ev → Bool
  | .setProps cv => cv.isNone
  | _ => true

lemma not_ws_of_digit (c : Char) (h : isDigit10 c = true) :
    jsWhitespace c = false := by
  simp only [isDigit10, decide_eq_true_eq] at h
  simp only [jsWhitespace, decide_eq_false_iff_not]
  omega

lemma ne_dash_of_digit (c : Char) (h : isDigit10 c = true) : ¬(c = '-') := by
  intro hc; subst hc; exact absurd h (by decide)

lemma ne_plus_of_digit (c : Char) (h : isDigit10 c = true) : ¬(c = '+') := by
  intro hc; subst hc; exact absurd h (by decide)

lemma takeWhile_all_eq (p : Char → Bool) :
    ∀ (l : List Char), (∀ c ∈ l, p c = true) → l.takeWhile p = l := by
  intro l h
  induction l with
  | nil => rfl
  | cons c cs ih =>
    rw [List.takeWhile_cons, if_pos (h c (by simp))]
    rw [ih (fun x hx => h x (by simp [hx]))]

/-- `parseInt(_, 10)` on a nonempty all-digit component returns its decimal
value. -/
lemma parseIntJS_digits (l : List Char) (hne : l ≠ [])
    (hd : ∀ c ∈ l, isDigit10 c = true) :
    parseIntJS l = some ((digitsToNat l : Int)) := by
  obtain ⟨c, cs, rfl⟩ : ∃ c cs, l = c :: cs := by
    cases l with
    | nil => exact absurd rfl hne
    | cons c cs => exact ⟨c, cs, rfl⟩
  have hc : isDigit10 c = true := hd c (by simp)
  have hdrop : (c :: cs).dropWhile jsWhitespace = c :: cs := by
    rw [List.dropWhile_cons, if_neg (by simp [not_ws_of_digit c hc])]
  have htake : (c :: cs).takeWhile isDigit10 = c :: cs :=
    takeWhile_all_eq isDigit10 (c :: cs) hd
  simp only [parseIntJS, hdrop]
  rw [if_neg (by simp), if_neg (by simp [ne_dash_of_digit c hc]),
    if_neg (by simp [ne_plus_of_digit c hc]), htake,
    if_neg (by simp)]

/-- A version string matching the three-numeric-component grammar parses to
exactly the integers of its (major, minor, patch) triple. -/
lemma parseVer_threeNumeric (s : String) (h : threeNumeric s = true) :
    parseVer s = [((verTriple s).1 : Int), ((verTriple s).2.1 : Int),
      ((verTriple s).2.2 : Int)] := by
  simp only [threeNumeric, Bool.and_eq_true, decide_eq_true_eq,
    List.all_eq_true] at h
  obtain ⟨hlen, hall⟩ := h
  obtain ⟨c1, c2, c3, hcs⟩ := List.length_eq_three.mp hlen
  have comp : ∀ c, numericComponent c = true →
      jsOr0 (parseIntJS c) = (digitsToNat c : Int) := by
    intro c hc
    simp only [numericComponent, Bool.and_eq_true, decide_eq_true_eq,
      List.all_eq_true] at hc
    rw [parseIntJS_digits c hc.1 hc.2]; rfl
  have h1 := hall c1 (by rw [hcs]; simp)
  have h2 := hall c2 (by rw [hcs]; simp)
  have h3 := hall c3 (by rw [hcs]; simp)
  simp only [parseVer, parseVerL, verTriple, hcs, List.map_cons,
    List.map_nil, List.getD, comp c1 h1, comp c2 h2, comp c3 h3]
  rfl

/-- On exact integer triples, the comparison body agrees with strict
lexicographic order. -/
lemma cmpParsed_lex (t u : Nat × Nat × Nat) :
    (cmpParsed [(t.1 : Int), (t.2.1 : Int), (t.2.2 : Int)]
      [(u.1 : Int), (u.2.1 : Int), (u.2.2 : Int)] = true) ↔
    tripleLexGt t u := by
  obtain ⟨a1, a2, a3⟩ := t
  obtain ⟨b1, b2, b3⟩ := u
  simp only [cmpParsed, tripleLexGt, jsNe, jsGt, List.get?]
  split_ifs with h1 h2 <;>
    simp only [bne_iff_ne, ne_eq, Nat.cast_inj, not_not, decide_eq_true_eq,
      Nat.cast_lt] at * <;>
    omega

lemma jsNe_comm (x y : Option Int) : jsNe x y = jsNe y x := by
  rcases x with _ | m <;> rcases y with _ | n <;> simp only [jsNe]
  by_cases h : m = n
  · subst h; rfl
  · have h1 : (m != n) = true := by simp [bne_iff_ne, h]
    have h2 : (n != m) = true := by
      simp only [bne_iff_ne]; exact fun e => h e.symm
    rw [h1, h2]

lemma jsNe_irrefl (x : Option Int) : jsNe x x = false := by
  rcases x with _ | m <;> simp [jsNe]

lemma jsGt_irrefl (x : Option Int) : jsGt x x = false := by
  rcases x with _ | m <;> simp [jsGt]

lemma jsGt_not_both (x y : Option Int) : (jsGt x y && jsGt y x) = false := by
  rcases x with _ | m <;> rcases y with _ | n <;>
    simp only [jsGt, Bool.and_false, Bool.false_and, Bool.and_eq_false_iff,
      decide_eq_false_iff_not]
  omega

lemma cmpParsed_asym (pa pb : List Int) :
    (cmpParsed pa pb && cmpParsed pb pa) = false := by
  simp only [cmpParsed]
  rw [jsNe_comm (pb.get? 0) (pa.get? 0), jsNe_comm (pb.get? 1) (pa.get? 1)]
  by_cases h0 : jsNe (pa.get? 0) (pb.get? 0) = true
  · rw [if_pos h0, if_pos h0]; exact jsGt_not_both _ _
  · rw [if_neg h0, if_neg h0]
    by_cases h1 : jsNe (pa.get? 1) (pb.get? 1) = true
    · rw [if_pos h1, if_pos h1]; exact jsGt_not_both _ _
    · rw [if_neg h1, if_neg h1]; exact jsGt_not_both _ _

lemma cmpParsed_irrefl (p : List Int) : cmpParsed p p = false := by
  simp [cmpParsed, jsNe_irrefl, jsGt_irrefl]

lemma uiInvariant_handleCatch (e : JSError) (prev : VersionInfo)
    (h : uiInvariant prev) : uiInvariant (handleCatch e prev) := by
  unfold handleCatch
  split_ifs with hn
  · exact h
  · exact h

lemma uiInvariant_applyOutcome (cv : Option String) (o : FetchOutcome)
    (prev : VersionInfo) (h : uiInvariant prev) :
    uiInvariant (applyOutcome cv o prev) := by
  cases o with
  | ok st tag =>
    rcases tag with _ | t <;> rcases cv with _ | c <;>
      simp [uiInvariant, applyOutcome]
  | notOk st => exact uiInvariant_handleCatch _ _ h
  | reject e => exact uiInvariant_handleCatch _ _ h

lemma uiInvariant_step (m : Machine) (e : Ev) (h : uiInvariant m.ui) :
    uiInvariant (step m e).ui := by
  cases e with
  | deliver i o =>
    simp only [step, deliverOutcome]
    cases hr : m.reqs.get? i with
    | none => exact h
    | some r => exact uiInvariant_applyOutcome _ _ _ h
  | setProps cv => exact h
  | unmount => exact h

lemma uiInvariant_foldl (evs : List Ev) :
    ∀ (m : Machine), uiInvariant m.ui → uiInvariant (evs.foldl step m).ui := by
  induction evs with
  | nil => exact fun m h => h
  | cons e evs ih => exact fun m h => ih (step m e) (uiInvariant_step m e h)

lemma uiInvariant_init (cv : Option String) :
    uiInvariant (initMachine cv).ui := by
  simp [uiInvariant, initMachine]

/-- The strengthened invariant for runs in which every supplied
`currentVersion` is null. -/
def nullMachine (m : Machine) : Prop :=
  m.ui.currentVersion = none ∧ m.ui.updateAvailable = false ∧
    ∀ r ∈ m.reqs, r.cv = none

lemma applyOutcome_null (o : FetchOutcome) (prev : VersionInfo)
    (h1 : prev.currentVersion = none) (h2 : prev.updateAvailable = false) :
    (applyOutcome none o prev).currentVersion = none ∧
    (applyOutcome none o prev).updateAvailable = false := by
  cases o with
  | ok st tag => cases tag <;> exact ⟨rfl, rfl⟩
  | notOk st =>
    simp only [applyOutcome, handleCatch]
    split_ifs <;> exact ⟨h1, h2⟩
  | reject e =>
    simp only [applyOutcome, handleCatch]
    split_ifs <;> exact ⟨h1, h2⟩

lemma nullMachine_step (m : Machine) (e : Ev) (he : evNull e = true)
    (h : nullMachine m) : nullMachine (step m e) := by
  obtain ⟨h1, h2, h3⟩ := h
  cases e with
  | deliver i o =>
    simp only [step, deliverOutcome]
    cases hr : m.reqs.get? i with
    | none => exact ⟨h1, h2, h3⟩
    | some r =>
      have hcv : r.cv = none := h3 r (List.get?_mem hr)
      refine ⟨?_, ?_, fun r' hr' =>
        h3 r' ((List.eraseIdx_sublist m.reqs i).subset hr')⟩
      · dsimp only; rw [hcv]; exact (applyOutcome_null _ _ h1 h2).1
      · dsimp only; rw [hcv]; exact (applyOutcome_null _ _ h1 h2).2
  | setProps cv =>
    simp only [evNull, Option.isNone_iff_eq_none] at he
    subst he
    refine ⟨h1, h2, fun r hr => ?_⟩
    rcases List.mem_append.mp hr with hl | hrt
    · obtain ⟨r0, hr0, rfl⟩ := List.mem_map.mp hl
      exact h3 r0 hr0
    · rw [List.mem_singleton] at hrt
      subst hrt
      rfl
  | unmount =>
    refine ⟨h1, h2, fun r hr => ?_⟩
    obtain ⟨r0, hr0, rfl⟩ := List.mem_map.mp hr
    exact h3 r0 hr0

lemma nullMachine_foldl (evs : List Ev) :
    ∀ (m : Machine), evs.all evNull = true → nullMachine m →
      nullMachine (evs.foldl step m) := by
  induction evs with
  | nil => exact fun m _ h => h
  | cons e evs ih =>
    intro m hall h
    simp only [List.all_cons, Bool.and_eq_true] at hall
    exact ih (step m e) hall.2 (nullMachine_step m e hall.1 h)

lemma filter_markAborted (l : List Request) :
    (l.map markAborted).filter (fun r => !r.aborted) = [] := by
  induction l with
  | nil => rfl
  | cons r rs ih => simp [markAborted, List.filter, ih]

lemma splitDots_ne_nil (l : List Char) : splitDots l ≠ [] := by
  cases l with
  | nil => simp [splitDots]
  | cons c cs =>
    simp only [splitDots]
    split_ifs <;> simp

lemma splitDots_mem :
    ∀ (l comp : List Char), comp ∈ splitDots l → ∀ c ∈ comp, c ∈ l := by
  intro l
  induction l with
  | nil =>
    intro comp h c hc
    simp only [splitDots, List.mem_singleton] at h
    subst h
    cases hc
  | cons c0 cs ih =>
    intro comp h c hc
    simp only [splitDots] at h
    split_ifs at h with hdot
    · rcases List.mem_cons.mp h with hEq | h2
      · subst hEq; cases hc
      · exact List.mem_cons_of_mem c0 (ih comp h2 c hc)
    · rcases List.mem_cons.mp h with hEq | h2
      · subst hEq
        rcases List.mem_cons.mp hc with hEq2 | hc2
        · subst hEq2; exact List.mem_cons_self _ _
        · cases hr : splitDots cs with
          | nil => exact absurd hr (splitDots_ne_nil cs)
          | cons h0 rtl =>
            rw [hr] at hc2
            simp only [List.headD_cons] at hc2
            exact List.mem_cons_of_mem c0
              (ih h0 (by rw [hr]; exact List.mem_cons_self h0 rtl) c hc2)
      · exact List.mem_cons_of_mem c0
          (ih comp (List.mem_of_mem_tail h2) c hc)

lemma stripV_subset (l : List Char) : ∀ c ∈ stripV l, c ∈ l := by
  cases l with
  | nil => intro c hc; cases hc
  | cons c0 cs =>
    intro c hc
    simp only [stripV] at hc
    split_ifs at hc with hv
    · exact List.mem_cons_of_mem c0 hc
    · exact hc

lemma takeWhile_no_digit (l : List Char)
    (h : ∀ c ∈ l, isDigit10 c = false) : l.takeWhile isDigit10 = [] := by
  cases l with
  | nil => rfl
  | cons c cs => rw [List.takeWhile_cons, if_neg (by simp [h c (by simp)])]

/-- `parseInt(_, 10)` is `NaN` on a component with no decimal digit. -/
lemma parseIntJS_no_digit (comp : List Char)
    (h : ∀ c ∈ comp, isDigit10 c = false) : parseIntJS comp = none := by
  have hsub : ∀ c ∈ comp.dropWhile jsWhitespace, isDigit10 c = false :=
    fun c hc => h c ((List.dropWhile_sublist jsWhitespace).subset hc)
  have htail : ∀ c ∈ (comp.dropWhile jsWhitespace).tail, isDigit10 c = false :=
    fun c hc => hsub c (List.mem_of_mem_tail hc)
  simp only [parseIntJS]
  split_ifs with he h1 h2 <;>
    simp_all [takeWhile_no_digit _ hsub, takeWhile_no_digit _ htail]

/-- A string without a single decimal digit parses to all-zero components. -/
lemma parseVer_no_digit (s : String)
    (h : s.data.all (fun c => !(isDigit10 c)) = true) :
    (parseVer s).all (fun x => x == 0) = true := by
  simp only [List.all_eq_true, Bool.not_eq_eq_eq_not, Bool.not_true] at h ⊢
  intro x hx
  simp only [parseVer, parseVerL, List.mem_map] at hx
  obtain ⟨comp, hcomp, rfl⟩ := hx
  have hnone : parseIntJS comp = none :=
    parseIntJS_no_digit comp
      (fun c hc => h c (stripV_subset _ _ (splitDots_mem _ _ hcomp c hc)))
  simp [jsOr0, hnone]

/-- C1: for version strings of exactly three dot-separated numeric
components with an optional leading `v`, `isNewerVersion a b` is true iff
the (major, minor, patch) triple of `a` strictly exceeds that of `b` in
lexicographic order with numeric component comparison; in particular
`isNewerVersion "v2.0.0" "1.9.9" = true`,
`isNewerVersion "1.10.0" "1.9.9" = true` and
`isNewerVersion "1.2.3" "1.2.3" = false`. -/
theorem c1_three_component_lex (a b : String)
    (ha : threeNumeric a = true) (hb : threeNumeric b = true) :
    (isNewerVersion a b = true ↔ tripleLexGt (verTriple a) (verTriple b)) ∧
    isNewerVersion "v2.0.0" "1.9.9" = true ∧
    isNewerVersion "1.10.0" "1.9.9" = true ∧
    isNewerVersion "1.2.3" "1.2.3" = false := by
  refine ⟨?_, by decide, by decide, by decide⟩
  unfold isNewerVersion
  rw [parseVer_threeNumeric a ha, parseVer_threeNumeric b hb]
  exact cmpParsed_lex (verTriple a) (verTriple b)

/-- Witness for C1 at the concrete pair ("1.10.0", "1.9.9"). -/
theorem c1_three_component_lex_witness :
    threeNumeric "1.10.0" = true ∧ threeNumeric "1.9.9" = true ∧
    ((isNewerVersion "1.10.0" "1.9.9" = true ↔
        tripleLexGt (verTriple "1.10.0") (verTriple "1.9.9")) ∧
      isNewerVersion "v2.0.0" "1.9.9" = true ∧
      isNewerVersion "1.10.0" "1.9.9" = true ∧
      isNewerVersion "1.2.3" "1.2.3" = false) :=
  ⟨by decide, by decide,
    c1_three_component_lex "1.10.0" "1.9.9" (by decide) (by decide)⟩

/-- C2 counterexample: the claim asserts
`isNewerVersion "1.2.5" "1.2" = true` (missing components behaving as 0),
but the code returns false: the destructured patch component of "1.2" is
`undefined` and `5 > undefined` is false. -/
theorem c2_missing_component_cex : isNewerVersion "1.2.5" "1.2" = false := by
  decide

/-- C2 amended: a non-numeric component that is present contributes 0
(so "1.x.3" compares exactly as "1.0.3" on either side), but a missing
component does not behave as 0: it is `undefined`, every order comparison
against `undefined` is false, and a comparison decided at a missing
component returns false, so `isNewerVersion "1.2.5" "1.2" = false` and
`isNewerVersion "1.2" "1.2.0" = false`. -/
theorem c2_component_defaults :
    (parseVer "1.x.3" = parseVer "1.0.3") ∧
    (∀ b, isNewerVersion "1.x.3" b = isNewerVersion "1.0.3" b) ∧
    (∀ a, isNewerVersion a "1.x.3" = isNewerVersion a "1.0.3") ∧
    (∀ x y z : Int, cmpParsed [x, y, z] [x, y] = false ∧
      cmpParsed [x, y] [x, y, z] = false) ∧
    isNewerVersion "1.2.5" "1.2" = false ∧
    isNewerVersion "1.2" "1.2.0" = false := by
  have hp : parseVer "1.x.3" = parseVer "1.0.3" := by decide
  refine ⟨hp, fun b => ?_, fun a => ?_, fun x y z => ?_, by decide, by decide⟩
  · unfold isNewerVersion; rw [hp]
  · unfold isNewerVersion; rw [hp]
  · constructor <;> simp [cmpParsed, jsNe_irrefl, jsGt, List.get?]

/-- C3 counterexample: the claim asserts that for every activation with
`currentVersion = null` every reachable state has
`updateAvailable = false`; but after a successful non-null activation, a
re-activation with null whose request fails keeps `updateAvailable = true`
(the catch branch spreads the previous state). -/
theorem c3_null_activation_cex :
    (run (some "1.0.0")
      [Ev.deliver 0 (FetchOutcome.ok "OK" (some "v2.0.0")),
       Ev.setProps none,
       Ev.deliver 0 (FetchOutcome.notOk "Internal Server Error")]
      ).ui.updateAvailable = true := by decide

/-- C3 amended: in every reachable state `updateAvailable` is true iff the
state's own `latestVersion` and `currentVersion` are both non-null and
`isNewerVersion latestVersion currentVersion`; and if every activation of
the run (the mount and every re-activation) supplies a null
`currentVersion`, then every reachable state has
`updateAvailable = false`.  A null re-activation after a successful
non-null one, however, retains the previous `updateAvailable` until its
own successful response. -/
theorem c3_update_available_invariant :
    (∀ (cv0 : Option String) (evs : List Ev),
      uiInvariant (run cv0 evs).ui) ∧
    (∀ evs : List Ev, evs.all evNull = true →
      (run none evs).ui.updateAvailable = false) := by
  constructor
  · exact fun cv0 evs =>
      uiInvariant_foldl evs (initMachine cv0) (uiInvariant_init cv0)
  · intro evs hall
    have h := nullMachine_foldl evs (initMachine none) hall
      ⟨rfl, rfl, fun r hr => by
        simp only [initMachine, List.mem_singleton] at hr
        subst hr; rfl⟩
    exact h.2.1

/-- Witness for C3 on a concrete all-null run. -/
theorem c3_update_available_invariant_witness :
    ([Ev.deliver 0 (FetchOutcome.ok "OK" (some "v9.9.9"))].all evNull
      = true) ∧
    (run none [Ev.deliver 0 (FetchOutcome.ok "OK" (some "v9.9.9"))]
      ).ui.updateAvailable = false :=
  ⟨by decide, c3_update_available_invariant.2
    [Ev.deliver 0 (FetchOutcome.ok "OK" (some "v9.9.9"))] (by decide)⟩

/-- C4 counterexample: the claim asserts that when a re-activation with a
new `currentVersion` supersedes an unresolved request, the single terminal
state reflects only the latest activation's `currentVersion`; but when the
latest activation's request fails, the catch branch spreads the previous
state, whose `currentVersion` field still holds the superseded
activation's value "1.0.0", not the latest "2.0.0". -/
theorem c4_stale_current_version_cex :
    ((run (some "1.0.0") [Ev.setProps (some "2.0.0"),
        Ev.deliver 1 (FetchOutcome.notOk "Internal Server Error")]
      ).ui.loading = false) ∧
    ((run (some "1.0.0") [Ev.setProps (some "2.0.0"),
        Ev.deliver 1 (FetchOutcome.notOk "Internal Server Error")]
      ).ui.currentVersion = some "1.0.0") ∧
    (((run (some "1.0.0") [Ev.setProps (some "2.0.0"),
        Ev.deliver 1 (FetchOutcome.notOk "Internal Server Error")]
      ).ui.currentVersion == some "2.0.0") = false) := by decide

/-- C4 amended: a superseded (aborted) request's outcome never changes the
observable state; delivering the outcome of any request consumes it, so
the latest activation produces exactly one terminal `loading = false`
state, from its own response; on success that state carries the latest
activation's `currentVersion`, but on failure the `currentVersion` field
retains the value of the pre-existing state. -/
theorem c4_supersession :
    (∀ (m : Machine) (i : Nat) (o : FetchOutcome) (r : Request),
      m.reqs.get? i = some r → r.aborted = true →
      (deliverOutcome m i o).ui = m.ui) ∧
    (∀ (m : Machine) (i : Nat) (o : FetchOutcome) (r : Request),
      m.reqs.get? i = some r →
      (deliverOutcome m i o).reqs = m.reqs.eraseIdx i) ∧
    (∀ (m : Machine) (i : Nat) (st : String) (tag : Option String)
        (cv : Option String), m.reqs.get? i = some ⟨cv, false⟩ →
      (deliverOutcome m i (FetchOutcome.ok st tag)).ui.currentVersion = cv ∧
      (deliverOutcome m i (FetchOutcome.ok st tag)).ui.loading = false) ∧
    (∀ (m : Machine) (i : Nat) (st : String) (cv : Option String),
      m.reqs.get? i = some ⟨cv, false⟩ →
      (deliverOutcome m i (FetchOutcome.notOk st)).ui.currentVersion =
        m.ui.currentVersion ∧
      (deliverOutcome m i (FetchOutcome.notOk st)).ui.loading = false) := by
  refine ⟨?_, ?_, ?_, ?_⟩
  · intro m i o r hr hab
    rw [List.get?_eq_getElem?] at hr
    simp [deliverOutcome, hr, hab, applyOutcome, handleCatch, abortError]
  · intro m i o r hr
    rw [List.get?_eq_getElem?] at hr
    simp [deliverOutcome, hr]
  · intro m i st tag cv hr
    rw [List.get?_eq_getElem?] at hr
    constructor <;> simp [deliverOutcome, hr, applyOutcome]
  · intro m i st cv hr
    rw [List.get?_eq_getElem?] at hr
    constructor <;> simp [deliverOutcome, hr, applyOutcome, handleCatch]

/-- Witness for C4: a freshly superseded request delivers an outcome and
the state is untouched. -/
theorem c4_supersession_witness :
    ((step (initMachine (some "1.0.0")) (Ev.setProps (some "2.0.0"))
      ).reqs.get? 0 = some ⟨some "1.0.0", true⟩) ∧
    (deliverOutcome
        (step (initMachine (some "1.0.0")) (Ev.setProps (some "2.0.0"))) 0
        (FetchOutcome.ok "OK" (some "v9.9.9"))).ui =
      (step (initMachine (some "1.0.0")) (Ev.setProps (some "2.0.0"))).ui :=
  ⟨by decide, c4_supersession.1
    (step (initMachine (some "1.0.0")) (Ev.setProps (some "2.0.0"))) 0
    (FetchOutcome.ok "OK" (some "v9.9.9")) ⟨some "1.0.0", true⟩
    (by decide) rfl⟩

/-- C5: an abort caused by deactivation produces no state transition: the
`AbortError` rejection is recognized by name and discarded, and after an
unmount every delivery (of any outcome, to any request) leaves the
observable state exactly as it was, so `loading` is not cleared and no
error is surfaced. -/
theorem c5_abort_silent :
    (∀ (prev : VersionInfo) (msg : String),
      handleCatch ⟨"AbortError", msg⟩ prev = prev) ∧
    (∀ (m : Machine) (i : Nat) (o : FetchOutcome),
      (step (step m Ev.unmount) (Ev.deliver i o)).ui = m.ui) := by
  constructor
  · intro prev msg; simp [handleCatch]
  · intro m i o
    simp only [step, deliverOutcome]
    rcases hr : (m.reqs.map markAborted).get? i with _ | r
    · simp only [hr]
    · simp only [hr]
      rw [List.get?_eq_getElem?, List.getElem?_map] at hr
      obtain ⟨r0, hr0, hfr⟩ := Option.map_eq_some'.mp hr
      subst hfr
      simp [markAborted, applyOutcome, handleCatch, abortError]

/-- C6 counterexample: the claim asserts that on every activation,
including re-activation, the state is reset to the loading record with
the supplied version; but `useState` initialises only on mount, so after
a completed check a re-activation with "1.5.0" leaves the previous state
(loading already false, old `currentVersion`, old `latestVersion`). -/
theorem c6_no_reset_on_reactivation_cex :
    ((run (some "1.0.0")
        [Ev.deliver 0 (FetchOutcome.ok "OK" (some "v2.0.0")),
         Ev.setProps (some "1.5.0")]).ui.loading = false) ∧
    ((run (some "1.0.0")
        [Ev.deliver 0 (FetchOutcome.ok "OK" (some "v2.0.0")),
         Ev.setProps (some "1.5.0")]).ui.currentVersion = some "1.0.0") ∧
    ((run (some "1.0.0")
        [Ev.deliver 0 (FetchOutcome.ok "OK" (some "v2.0.0")),
         Ev.setProps (some "1.5.0")]).ui.latestVersion = some "v2.0.0") := by
  decide

/-- C6 amended: on the initial activation (mount) the observable state is
`{latestVersion: null, currentVersion: supplied, updateAvailable: false,
loading: true, error: null}` and exactly one request is issued; a
re-activation leaves the observable state unchanged (no reset) while
aborting all previous requests and issuing exactly one new request that
carries the new `currentVersion`. -/
theorem c6_mount_reset_only :
    (∀ cv, (initMachine cv).ui = ⟨none, cv, false, true, none⟩ ∧
      (initMachine cv).reqs = [⟨cv, false⟩]) ∧
    (∀ (m : Machine) (cv : Option String),
      (step m (Ev.setProps cv)).ui = m.ui ∧
      (step m (Ev.setProps cv)).reqs.filter (fun r => !r.aborted) =
        [⟨cv, false⟩]) := by
  refine ⟨fun cv => ⟨rfl, rfl⟩, fun m cv => ⟨rfl, ?_⟩⟩
  simp only [step, List.filter_append, filter_markAborted, List.nil_append]
  rfl

/-- C7 counterexample: the claim asserts that a failing attempt's terminal
state has `latestVersion` null and `updateAvailable` false; but a failure
after a re-activation that follows a successful check spreads the previous
state, keeping the old non-null `latestVersion` and `updateAvailable =
true`. -/
theorem c7_failure_keeps_previous_cex :
    (run (some "1.0.0")
      [Ev.deliver 0 (FetchOutcome.ok "OK" (some "v2.0.0")),
       Ev.setProps (some "1.5.0"),
       Ev.deliver 0 (FetchOutcome.notOk "Internal Server Error")]).ui =
    ⟨some "v2.0.0", some "1.0.0", true, false,
      some "Version check failed: Internal Server Error"⟩ := by decide

/-- C7 amended: on a non-success (non-2xx) response the terminal state has
`loading = false` and the non-null error "Version check failed: " followed
by the status text; on a transport failure (any non-abort rejection) the
error is the rejection's message; in both cases `latestVersion` and
`updateAvailable` are left unchanged from the pre-failure state, so on a
fresh mount they remain null and false. -/
theorem c7_failure_terminal_state :
    (∀ (prev : VersionInfo) (cv : Option String) (st : String),
      applyOutcome cv (FetchOutcome.notOk st) prev =
        ⟨prev.latestVersion, prev.currentVersion, prev.updateAvailable,
          false, some ("Version check failed: " ++ st)⟩) ∧
    (∀ (prev : VersionInfo) (cv : Option String) (e : JSError),
      e.name ≠ "AbortError" →
      applyOutcome cv (FetchOutcome.reject e) prev =
        ⟨prev.latestVersion, prev.currentVersion, prev.updateAvailable,
          false, some e.message⟩) ∧
    (∀ (cv0 : Option String) (st : String),
      (run cv0 [Ev.deliver 0 (FetchOutcome.notOk st)]).ui =
        ⟨none, cv0, false, false,
          some ("Version check failed: " ++ st)⟩) := by
  refine ⟨?_, ?_, ?_⟩
  · intro prev cv st
    simp only [applyOutcome, handleCatch]
    rw [if_neg (by decide)]
  · intro prev cv e he
    simp only [applyOutcome, handleCatch]
    rw [if_neg he]
  · intro cv0 st
    simp only [run, List.foldl, step, deliverOutcome, initMachine,
      List.get?, applyOutcome, handleCatch]
    rw [if_neg (by decide)]
    rfl

/-- Witness for C7 with a transport failure. -/
theorem c7_failure_terminal_state_witness :
    ((⟨"TypeError", "Failed to fetch"⟩ : JSError).name ≠ "AbortError") ∧
    applyOutcome (some "1.0.0")
      (FetchOutcome.reject ⟨"TypeError", "Failed to fetch"⟩)
      ⟨none, some "1.0.0", false, true, none⟩ =
      ⟨none, some "1.0.0", false, false, some "Failed to fetch"⟩ :=
  ⟨by decide, c7_failure_terminal_state.2.1
    ⟨none, some "1.0.0", false, true, none⟩ (some "1.0.0")
    ⟨"TypeError", "Failed to fetch"⟩ (by decide)⟩

/-- C8: a successful (2xx) response whose JSON payload has no `tag_name`
field terminates the check as a success: `latestVersion = null`,
`updateAvailable = false`, `error = null`, `loading = false`. -/
theorem c8_no_tag_success :
    (∀ (prev : VersionInfo) (cv : Option String) (st : String),
      applyOutcome cv (FetchOutcome.ok st none) prev =
        ⟨none, cv, false, false, none⟩) ∧
    (∀ (cv0 : Option String) (st : String),
      (run cv0 [Ev.deliver 0 (FetchOutcome.ok st none)]).ui =
        ⟨none, cv0, false, false, none⟩) := by
  constructor
  · intro prev cv st
    cases cv <;> rfl
  · intro cv0 st
    cases cv0 <;> rfl

/-- C9: `isNewerVersion` is total over arbitrary string pairs (the
embedding is a total function into `Bool`); every component of a string
containing no decimal digit parses to 0; and
`isNewerVersion "abc" "1.0.0" = false`. -/
theorem c9_total_and_lenient :
    (∀ a b, isNewerVersion a b = true ∨ isNewerVersion a b = false) ∧
    (∀ s : String, s.data.all (fun c => !(isDigit10 c)) = true →
      (parseVer s).all (fun x => x == 0) = true) ∧
    isNewerVersion "abc" "1.0.0" = false := by
  refine ⟨fun a b => ?_, parseVer_no_digit, by decide⟩
  cases h : isNewerVersion a b
  · exact Or.inr rfl
  · exact Or.inl rfl

/-- Witness for C9 at the digit-free string "abc". -/
theorem c9_total_and_lenient_witness :
    (("abc" : String).data.all (fun c => !(isDigit10 c)) = true) ∧
    (parseVer "abc").all (fun x => x == 0) = true :=
  ⟨by decide, c9_total_and_lenient.2.1 "abc" (by decide)⟩

/-- C10: `isNewerVersion` is asymmetric on arbitrary strings (never true
in both directions) and irreflexive (`isNewerVersion x x = false` for
every string, including malformed ones). -/
theorem c10_asymmetric_irreflexive : ∀ a b : String,
    ((isNewerVersion a b && isNewerVersion b a) = false) ∧
    isNewerVersion a a = false :=
  fun a b => ⟨cmpParsed_asym (parseVer a) (parseVer b),
    cmpParsed_irrefl (parseVer a)⟩
